import Mathlib

/-!
Verification of the full-duplex voice conversation core
(conversation state machine, barge-in detector, voice coordinator,
lip sync engine) against its natural-language specification.

The definitions below are shallow embeddings of the TypeScript sources:
  - `src/lib/voice/conversation-state.ts`
  - `src/lib/voice/VoiceCoordinator.ts`
  - the barge-in detector module
  - the lip sync engine module
Machine time (`Date.now()`) is passed explicitly as a natural number,
JavaScript number arithmetic on audio weights is modelled over `ℚ`,
and callback invocations are modelled as explicitly returned values.
-/

/-- The five conversation states, from `conversation-state.ts`. -/
inductive ConversationState
  | IDLE
  | LISTENING
  | THINKING
  | SPEAKING
  | BARGE_IN
deriving DecidableEq, Repr

/-- An immutable transition record, from `conversation-state.ts`
(`StateTransition`). The `timestamp` is the `Date.now()` value at the
moment of the transition. -/
structure StateTransition where
  from_ : ConversationState
  to_ : ConversationState
  timestamp : Nat
  reason : Option String
deriving DecidableEq, Repr

/-- The state machine's mutable fields: current state and the bounded
history, from `ConversationStateMachine`. -/
structure ConversationStateMachine where
  state : ConversationState := .IDLE
  history : List StateTransition := []
deriving DecidableEq, Repr

/-- `maxHistorySize` field of `ConversationStateMachine`. -/
def maxHistorySize : Nat := 50

/-- The allowed-transition table from
`ConversationStateMachine.isValidTransition` (`validTransitions`). -/
def validTransitions : ConversationState → List ConversationState
  | .IDLE => [.LISTENING, .THINKING]
  | .LISTENING => [.THINKING, .IDLE, .SPEAKING]
  | .THINKING => [.SPEAKING, .LISTENING, .IDLE]
  | .SPEAKING => [.LISTENING, .BARGE_IN, .IDLE]
  | .BARGE_IN => [.LISTENING, .IDLE]

/-- `ConversationStateMachine.isValidTransition`: membership of the target
in the allowed list for the current state. -/
def isValidTransition (from_ to_ : ConversationState) : Bool :=
  (validTransitions from_).contains to_

/-- History push followed by the trim step of
`ConversationStateMachine.transition`: `push` the record, then if the
length exceeds `maxHistorySize`, `shift()` (drop the oldest entry). -/
def pushHistory (history : List StateTransition) (t : StateTransition) :
    List StateTransition :=
  let h := history ++ [t]
  if h.length > maxHistorySize then h.drop 1 else h

/-- `ConversationStateMachine.transition`: validate against the table;
on failure return `false` leaving the machine untouched; on success
record the transition in the bounded history, update the state and
return `true`.  `now` stands for `Date.now()`. -/
def ConversationStateMachine.transition (m : ConversationStateMachine)
    (to_ : ConversationState) (reason : Option String) (now : Nat) :
    Bool × ConversationStateMachine :=
  if isValidTransition m.state to_ then
    (true, { state := to_,
             history := pushHistory m.history ⟨m.state, to_, now, reason⟩ })
  else
    (false, m)

/-- `ConversationStateMachine.reset`: a transition to IDLE with reason
"Reset". -/
def ConversationStateMachine.reset (m : ConversationStateMachine)
    (now : Nat) : Bool × ConversationStateMachine :=
  m.transition .IDLE (some "Reset") now

/-- A request fed to the state machine: the arguments of one
`transition` call. -/
structure TransitionRequest where
  to_ : ConversationState
  reason : Option String
  now : Nat

/-- Run a sequence of `transition` calls against the machine. -/
def runTransitions (m : ConversationStateMachine) :
    List TransitionRequest → ConversationStateMachine
  | [] => m
  | q :: qs => runTransitions (m.transition q.to_ q.reason q.now).2 qs

/-- The records of the successful transitions of a run, in order. -/
def transitionTrace (m : ConversationStateMachine) :
    List TransitionRequest → List StateTransition
  | [] => []
  | q :: qs =>
    let r := m.transition q.to_ q.reason q.now
    (if r.1 then [⟨m.state, q.to_, q.now, q.reason⟩] else [])
      ++ transitionTrace r.2 qs

/-- The suffix of the `maxHistorySize` most recent entries of a list
(the whole list when it is shorter). -/
def recentSuffix (t : List StateTransition) : List StateTransition :=
  t.drop (t.length - maxHistorySize)

/-- Membership in the table coincides with the boolean check. -/
lemma isValidTransition_iff (f t : ConversationState) :
    isValidTransition f t = true ↔ t ∈ validTransitions f := by
  cases f <;> cases t <;> decide

section StateMachineClaims

/-- C1. For every current state and target, `transition` returns `true`,
appends the transition record to the (bounded) history and sets the
current state to the target, exactly when the target is in the allowed
set of the current state given by the table; otherwise it returns
`false` and leaves both the state and the history unchanged. -/
theorem transition_succeeds_iff_allowed (m : ConversationStateMachine)
    (to_ : ConversationState) (reason : Option String) (now : Nat) :
    ((m.transition to_ reason now).1 = true ↔ to_ ∈ validTransitions m.state)
    ∧ (to_ ∈ validTransitions m.state →
        (m.transition to_ reason now).2.state = to_
        ∧ (m.transition to_ reason now).2.history
            = pushHistory m.history ⟨m.state, to_, now, reason⟩
        ∧ (m.transition to_ reason now).2.history.getLast?
            = some ⟨m.state, to_, now, reason⟩)
    ∧ (to_ ∉ validTransitions m.state →
        m.transition to_ reason now = (false, m)) := by
  by_cases h : isValidTransition m.state to_ = true
  · have hmem := (isValidTransition_iff m.state to_).mp h
    refine ⟨by simp [ConversationStateMachine.transition, h, hmem], ?_, ?_⟩
    · intro _
      refine ⟨by simp [ConversationStateMachine.transition, h], ?_, ?_⟩
      · simp [ConversationStateMachine.transition, h]
      · simp only [ConversationStateMachine.transition, h, if_true]
        unfold pushHistory
        by_cases hl : (m.history ++ [(⟨m.state, to_, now, reason⟩ : StateTransition)]).length > maxHistorySize
        · have hne : m.history ≠ [] := by
            intro he
            rw [he] at hl
            simp [maxHistorySize] at hl
          simp only [hl, if_true]
          rw [List.getLast?_drop]
          simp [List.getLast?_append, hne]
        · simp only [hl, if_false]
          simp [List.getLast?_append]
    · intro hn; exact absurd hmem hn
  · have hnmem : to_ ∉ validTransitions m.state := fun hc =>
      h ((isValidTransition_iff m.state to_).mpr hc)
    refine ⟨?_, fun hc => absurd hc hnmem, fun _ => ?_⟩
    · simp [ConversationStateMachine.transition, h, hnmem]
    · simp [ConversationStateMachine.transition, h]

/-- Witness for C1 at a concrete machine: from IDLE the transition to
LISTENING succeeds and sets the state, and the transition to SPEAKING is
rejected leaving the machine unchanged. -/
theorem transition_succeeds_iff_allowed_witness :
    (ConversationStateMachine.transition ⟨.IDLE, []⟩ .LISTENING none 5).2.state
        = .LISTENING
    ∧ ConversationStateMachine.transition ⟨.IDLE, []⟩ .SPEAKING none 5
        = (false, ⟨.IDLE, []⟩) := by
  refine ⟨?_, ?_⟩
  · exact ((transition_succeeds_iff_allowed ⟨.IDLE, []⟩ .LISTENING none 5).2.1
      (by decide)).1
  · exact (transition_succeeds_iff_allowed ⟨.IDLE, []⟩ .SPEAKING none 5).2.2
      (by decide)

end StateMachineClaims

section ResetClaim

/-- C6 counterexample. The table does not allow IDLE → IDLE, so on a
machine already in IDLE, `reset` performs a rejected transition: the
underlying `transition` returns `false` and the machine is unchanged,
refuting the claim that `reset` always performs a successful transition
(IDLE is not in the allowed set of IDLE). -/
theorem reset_from_idle_fails :
    ConversationStateMachine.reset ⟨.IDLE, []⟩ 0 = (false, ⟨.IDLE, []⟩) := by
  decide

/-- C6 (amended). From every state other than IDLE, IDLE is in the
allowed set, so `reset` performs a successful transition into IDLE;
from IDLE itself the requested IDLE → IDLE transition is rejected and
`reset` leaves the machine (state and history) unchanged — idempotent in
effect, but as a rejected no-op rather than a successful transition. -/
theorem reset_succeeds_iff_not_idle (m : ConversationStateMachine)
    (now : Nat) :
    (m.state ≠ .IDLE →
      (m.reset now).1 = true ∧ (m.reset now).2.state = .IDLE)
    ∧ (m.state = .IDLE → m.reset now = (false, m)) := by
  unfold ConversationStateMachine.reset ConversationStateMachine.transition
  cases hs : m.state <;>
    simp [hs, isValidTransition, validTransitions]

/-- Witness for C6: reset from SPEAKING succeeds into IDLE, and reset
of a machine already in IDLE is the rejected no-op. -/
theorem reset_succeeds_iff_not_idle_witness :
    (ConversationStateMachine.reset ⟨.SPEAKING, []⟩ 7).1 = true
    ∧ (ConversationStateMachine.reset ⟨.SPEAKING, []⟩ 7).2.state = .IDLE
    ∧ ConversationStateMachine.reset ⟨.IDLE, []⟩ 3 = (false, ⟨.IDLE, []⟩) := by
  refine ⟨?_, ?_, ?_⟩
  · exact ((reset_succeeds_iff_not_idle ⟨.SPEAKING, []⟩ 7).1 (by decide)).1
  · exact ((reset_succeeds_iff_not_idle ⟨.SPEAKING, []⟩ 7).1 (by decide)).2
  · exact (reset_succeeds_iff_not_idle ⟨.IDLE, []⟩ 3).2 rfl

end ResetClaim

section HistoryClaim

/-- Pushing onto a 50-bounded suffix is the 50-bounded suffix of the
extended list: the FIFO trim step commutes with taking the recent
suffix. -/
lemma pushHistory_recentSuffix (t : List StateTransition)
    (r : StateTransition) :
    pushHistory (recentSuffix t) r = recentSuffix (t ++ [r]) := by
  unfold pushHistory recentSuffix
  have hlen : (t.drop (t.length - maxHistorySize)).length
      = t.length - (t.length - maxHistorySize) := List.length_drop _ _
  by_cases hn : t.length < maxHistorySize
  · have h0 : t.length - maxHistorySize = 0 := by omega
    have h1 : (t ++ [r]).length - maxHistorySize = 0 := by
      simp only [List.length_append, List.length_singleton]
      omega
    simp only [h0, List.drop_zero, h1]
    have : ¬ (t ++ [r]).length > maxHistorySize := by
      simp only [List.length_append, List.length_singleton]
      omega
    rw [if_neg this]
  · push_neg at hn
    have hgt : (t.drop (t.length - maxHistorySize) ++ [r]).length
        > maxHistorySize := by
      simp only [List.length_append, List.length_singleton, hlen]
      omega
    simp only [hgt, if_true]
    have hle : 1 ≤ (t.drop (t.length - maxHistorySize)).length := by
      rw [hlen]; simp only [maxHistorySize] at hn ⊢; omega
    rw [List.drop_append_of_le_length hle, List.drop_drop]
    have harith : t.length - maxHistorySize + 1
        = (t ++ [r]).length - maxHistorySize := by
      simp only [List.length_append, List.length_singleton]
      omega
    rw [harith]
    have hle2 : (t ++ [r]).length - maxHistorySize ≤ t.length := by
      simp only [List.length_append, List.length_singleton]
      omega
    rw [List.drop_append_of_le_length hle2]

/-- Running any request sequence preserves the recent-suffix shape of
the history relative to the trace of successful transitions. -/
lemma runTransitions_history (qs : List TransitionRequest) :
    ∀ (m : ConversationStateMachine) (t : List StateTransition),
      m.history = recentSuffix t →
      (runTransitions m qs).history
        = recentSuffix (t ++ transitionTrace m qs) := by
  induction qs with
  | nil =>
    intro m t hm
    simpa [runTransitions, transitionTrace] using hm
  | cons q qs ih =>
    intro m t hm
    by_cases h : isValidTransition m.state q.to_ = true
    · have htr : m.transition q.to_ q.reason q.now
          = (true, { state := q.to_,
                     history := pushHistory m.history
                       ⟨m.state, q.to_, q.now, q.reason⟩ }) := by
        simp [ConversationStateMachine.transition, h]
      have hnext :
          ({ state := q.to_,
             history := pushHistory m.history
               ⟨m.state, q.to_, q.now, q.reason⟩ } :
            ConversationStateMachine).history
          = recentSuffix (t ++ [⟨m.state, q.to_, q.now, q.reason⟩]) := by
        simp only [hm]
        exact pushHistory_recentSuffix t _
      have := ih _ _ hnext
      simp only [runTransitions, transitionTrace, htr, if_true,
        List.singleton_append, List.append_assoc] at this ⊢
      simpa [List.append_assoc] using this
    · have htr : m.transition q.to_ q.reason q.now = (false, m) := by
        simp [ConversationStateMachine.transition, h]
      have := ih m t hm
      simp only [runTransitions, transitionTrace, htr, if_false,
        List.nil_append] at this ⊢
      simpa using this

/-- C7. For every sequence of transition requests run against a fresh
machine, the history is exactly the suffix of the 50 most recent
successful-transition records, in order (FIFO eviction of the oldest),
and in particular never holds more than 50 entries. -/
theorem history_bounded_fifo (qs : List TransitionRequest) :
    (runTransitions ⟨.IDLE, []⟩ qs).history
      = recentSuffix (transitionTrace ⟨.IDLE, []⟩ qs)
    ∧ (runTransitions ⟨.IDLE, []⟩ qs).history.length ≤ maxHistorySize := by
  have h := runTransitions_history qs ⟨.IDLE, []⟩ []
    (by simp [recentSuffix])
  simp only [List.nil_append] at h
  refine ⟨h, ?_⟩
  rw [h]
  unfold recentSuffix
  rw [List.length_drop]
  omega

end HistoryClaim

/-- JavaScript `String.prototype.trim` modelled executably: strip
whitespace from both ends of the string. A blank string trims to the
empty string, so the source's `!text || !text.trim()` test is the
single test `jsTrim text = ""`. -/
def jsTrim (s : String) : String :=
  String.mk ((s.data.dropWhile Char.isWhitespace).reverse.dropWhile
    Char.isWhitespace).reverse

/-- Configuration of the barge-in detector, with the source defaults
(`BargeInConfig` and the `??` fallbacks in the constructor). -/
structure BargeInConfig where
  energyThreshold : ℚ := 2/100
  minTranscriptLength : Nat := 3
  debounceMs : Nat := 300
  vadWindowMs : Nat := 200

/-- The reason carried by a barge-in event. -/
inductive BargeInReason
  | energy
  | transcript
  | combined
deriving DecidableEq, Repr

/-- Diagnostic details of a barge-in event (`BargeInEvent.details`). -/
structure BargeInDetails where
  energy : Option ℚ := none
  transcriptLength : Option Nat := none

/-- A barge-in event (`BargeInEvent`). -/
structure BargeInEvent where
  timestamp : Nat
  reason : BargeInReason
  confidence : ℚ
  details : BargeInDetails := {}

/-- The barge-in detector's mutable fields (`BargeInDetector`). -/
structure BargeInDetector where
  config : BargeInConfig
  lastBargeIn : Nat := 0
  energyHistory : List ℚ := []
  vadWindowSize : Nat
  partialTranscript : String := ""

/-- The detector as built by the constructor: zeroed state and a VAD
window size of `ceil(vadWindowMs / 256)` chunks. -/
def BargeInDetector.init (config : BargeInConfig) : BargeInDetector :=
  { config := config
    lastBargeIn := 0
    energyHistory := []
    vadWindowSize := (config.vadWindowMs + 255) / 256
    partialTranscript := "" }

/-- `BargeInDetector.triggerBargeIn`: the centralized, debounced trigger.
If fewer than `debounceMs` milliseconds have elapsed since the last
honored trigger the attempt is dropped (no callback, detector
unchanged); otherwise the last-trigger timestamp is updated and the
callback fires with the event (modelled as the returned `some event`).
`now` stands for `Date.now()`. -/
def BargeInDetector.triggerBargeIn (d : BargeInDetector) (now : Nat)
    (event : BargeInEvent) : BargeInDetector × Option BargeInEvent :=
  if now - d.lastBargeIn < d.config.debounceMs then
    (d, none)
  else
    ({ d with lastBargeIn := now }, some event)

/-- `BargeInDetector.processTranscript`: a non-final transcript whose
trimmed length meets the minimum attempts a trigger with reason
`transcript` and confidence 0.8; a final transcript clears the retained
partial transcript without triggering. -/
def BargeInDetector.processTranscript (d : BargeInDetector) (text : String)
    (isFinal : Bool) (now : Nat) : BargeInDetector × Option BargeInEvent :=
  if !isFinal then
    let d := { d with partialTranscript := text }
    if (jsTrim text).length ≥ d.config.minTranscriptLength then
      d.triggerBargeIn now
        { timestamp := now
          reason := .transcript
          confidence := 8/10
          details := { transcriptLength := some (jsTrim text).length } }
    else
      (d, none)
  else
    ({ d with partialTranscript := "" }, none)

section BargeInClaim

/-- C5. A trigger attempt invokes the callback exactly when at least
`debounceMs` has elapsed since the last honored trigger; an honored
trigger updates the last-trigger timestamp, a debounced-away attempt
changes nothing and fires no callback; in particular with the default
300 ms debounce, of two attempts 100 ms apart only the first fires. -/
theorem triggerBargeIn_debounce (d : BargeInDetector) (now : Nat)
    (e : BargeInEvent) :
    ((d.triggerBargeIn now e).2 = some e ↔
      d.config.debounceMs ≤ now - d.lastBargeIn)
    ∧ (d.config.debounceMs ≤ now - d.lastBargeIn →
        d.triggerBargeIn now e = ({ d with lastBargeIn := now }, some e))
    ∧ (now - d.lastBargeIn < d.config.debounceMs →
        d.triggerBargeIn now e = (d, none))
    ∧ (∀ (e₂ : BargeInEvent), d.config.debounceMs = 300 →
        300 ≤ now - d.lastBargeIn →
        (d.triggerBargeIn now e).2 = some e
        ∧ ((d.triggerBargeIn now e).1).triggerBargeIn (now + 100) e₂
            = ((d.triggerBargeIn now e).1, none)) := by
  by_cases h : now - d.lastBargeIn < d.config.debounceMs
  · refine ⟨?_, ?_, ?_, ?_⟩
    · simp [BargeInDetector.triggerBargeIn, h]
    · intro hle; omega
    · intro _; simp [BargeInDetector.triggerBargeIn, h]
    · intro e₂ h300 hle; omega
  · refine ⟨?_, ?_, ?_, ?_⟩
    · simp [BargeInDetector.triggerBargeIn, h]
      omega
    · intro _; simp [BargeInDetector.triggerBargeIn, h]
    · intro hlt; omega
    · intro e₂ h300 _
      have h1 : d.triggerBargeIn now e
          = ({ d with lastBargeIn := now }, some e) := by
        simp [BargeInDetector.triggerBargeIn, h]
      refine ⟨by simp [h1], ?_⟩
      rw [h1]
      simp [BargeInDetector.triggerBargeIn]
      omega

/-- Witness for C5 with the default configuration: an attempt at
t = 1000 (debounce 300, last trigger 0) fires, and a second attempt
100 ms later is dropped leaving the detector unchanged. -/
theorem triggerBargeIn_debounce_witness :
    ((BargeInDetector.init {}).triggerBargeIn 1000
        ⟨1000, .energy, 1/2, {}⟩).2 = some ⟨1000, .energy, 1/2, {}⟩
    ∧ (((BargeInDetector.init {}).triggerBargeIn 1000
          ⟨1000, .energy, 1/2, {}⟩).1).triggerBargeIn (1000 + 100)
            ⟨1100, .energy, 1/2, {}⟩
        = ((((BargeInDetector.init {})).triggerBargeIn 1000
            ⟨1000, .energy, 1/2, {}⟩).1, none) :=
  (triggerBargeIn_debounce (BargeInDetector.init {}) 1000
      ⟨1000, .energy, 1/2, {}⟩).2.2.2
    ⟨1100, .energy, 1/2, {}⟩ rfl (by decide)

end BargeInClaim

/-- A viseme weight map: morph-target name to intensity
(`VisemeWeights` of the lip sync engine). JavaScript object lookup with
the `|| 0` fallback is modelled by association-list lookup with default
0 (`getW` below). -/
abbrev VisemeWeights := List (String × ℚ)

/-- Read a weight: the value stored under the key, 0 when absent
(the `this.previousWeights[key] || 0` pattern of the source). -/
def getW (w : VisemeWeights) (k : String) : ℚ :=
  (w.lookup k).getD 0

/-- Default value of the `smoothingFactor` field of `LipSyncEngine`. -/
def smoothingFactor : ℚ := 3/10

/-- `LipSyncEngine.mapToVisemes`: classify the three band energies and
the overall volume into one viseme weight set, fixed thresholds checked
in priority order, first match wins. -/
def mapToVisemes (lowFreq midFreq highFreq volume : ℚ) : VisemeWeights :=
  if volume < 1/10 then
    [("jawOpen", 0), ("mouthClose", 1)]
  else if highFreq > 6/10 then
    [("jawOpen", 2/10), ("mouthStretchLeft", 4/10),
     ("mouthStretchRight", 4/10), ("mouthFunnel", 2/10)]
  else if lowFreq > 7/10 then
    [("jawOpen", 8/10), ("mouthOpen", 6/10),
     ("mouthSmileLeft", 1/10), ("mouthSmileRight", 1/10)]
  else if midFreq > 5/10 ∧ volume > 3/10 then
    [("mouthClose", 9/10), ("mouthPressLeft", 5/10),
     ("mouthPressRight", 5/10), ("jawOpen", 1/10)]
  else if midFreq > 4/10 ∧ highFreq > 3/10 then
    [("jawOpen", 3/10), ("mouthSmileLeft", 6/10),
     ("mouthSmileRight", 6/10), ("mouthStretchLeft", 3/10),
     ("mouthStretchRight", 3/10)]
  else if lowFreq > 4/10 ∧ midFreq > 3/10 then
    [("jawOpen", 5/10), ("mouthFunnel", 7/10), ("mouthPucker", 6/10)]
  else
    [("jawOpen", 3/10 * volume), ("mouthOpen", 2/10 * volume)]

/-- The clamp to [0,1] applied by `smoothWeights`
(`Math.max(0, Math.min(1, v))`). -/
def clamp01 (x : ℚ) : ℚ := max 0 (min 1 x)

/-- `LipSyncEngine.smoothWeights`: for every key of either the previous
or the new weight set, linearly interpolate from the previous value
toward the new value by the smoothing factor, then clamp to [0,1]. -/
def smoothWeights (factor : ℚ) (previousWeights newWeights : VisemeWeights) :
    VisemeWeights :=
  let allKeys := (previousWeights.map Prod.fst ++ newWeights.map Prod.fst).dedup
  allKeys.map fun key =>
    let oldValue := getW previousWeights key
    let newValue := getW newWeights key
    (key, clamp01 (oldValue + (newValue - oldValue) * factor))

lemma clamp01_eq_self {x : ℚ} (h0 : 0 ≤ x) (h1 : x ≤ 1) : clamp01 x = x := by
  unfold clamp01
  rw [min_eq_right h1, max_eq_right h0]

lemma clamp01_nonneg (x : ℚ) : 0 ≤ clamp01 x := le_max_left _ _

lemma clamp01_le_one (x : ℚ) : clamp01 x ≤ 1 :=
  max_le (by norm_num) (min_le_left _ _)

lemma lookup_map_self (keys : List String) (f : String → ℚ) (k : String) :
    (keys.map fun key => (key, f key)).lookup k
      = if k ∈ keys then some (f k) else none := by
  induction keys with
  | nil => simp [List.lookup]
  | cons a as ih =>
    by_cases hk : k = a
    · subst hk
      simp [List.lookup]
    · have hba : (k == a) = false := by simp [hk]
      simp [List.lookup, hba, ih, hk]

lemma lookup_eq_none_of_not_mem_keys (w : VisemeWeights) (k : String)
    (h : k ∉ w.map Prod.fst) : w.lookup k = none := by
  induction w with
  | nil => rfl
  | cons p ps ih =>
    simp only [List.map_cons, List.mem_cons, not_or] at h
    have hba : (k == p.1) = false := by simp [h.1]
    simpa [List.lookup, hba] using ih h.2

section LipSyncClaims

/-- C8. Each classification of the analysis bands picks exactly one
viseme weight set by the fixed thresholds in priority order, first
match winning: silence, sibilant, open vowel, closed consonant, mid
vowel, rounded vowel, else the neutral pose scaled by volume. -/
theorem mapToVisemes_priority (lowFreq midFreq highFreq volume : ℚ) :
    (volume < 1/10 →
      mapToVisemes lowFreq midFreq highFreq volume
        = [("jawOpen", 0), ("mouthClose", 1)])
    ∧ (¬ volume < 1/10 → highFreq > 6/10 →
      mapToVisemes lowFreq midFreq highFreq volume
        = [("jawOpen", 2/10), ("mouthStretchLeft", 4/10),
           ("mouthStretchRight", 4/10), ("mouthFunnel", 2/10)])
    ∧ (¬ volume < 1/10 → ¬ highFreq > 6/10 → lowFreq > 7/10 →
      mapToVisemes lowFreq midFreq highFreq volume
        = [("jawOpen", 8/10), ("mouthOpen", 6/10),
           ("mouthSmileLeft", 1/10), ("mouthSmileRight", 1/10)])
    ∧ (¬ volume < 1/10 → ¬ highFreq > 6/10 → ¬ lowFreq > 7/10 →
       midFreq > 5/10 ∧ volume > 3/10 →
      mapToVisemes lowFreq midFreq highFreq volume
        = [("mouthClose", 9/10), ("mouthPressLeft", 5/10),
           ("mouthPressRight", 5/10), ("jawOpen", 1/10)])
    ∧ (¬ volume < 1/10 → ¬ highFreq > 6/10 → ¬ lowFreq > 7/10 →
       ¬ (midFreq > 5/10 ∧ volume > 3/10) →
       midFreq > 4/10 ∧ highFreq > 3/10 →
      mapToVisemes lowFreq midFreq highFreq volume
        = [("jawOpen", 3/10), ("mouthSmileLeft", 6/10),
           ("mouthSmileRight", 6/10), ("mouthStretchLeft", 3/10),
           ("mouthStretchRight", 3/10)])
    ∧ (¬ volume < 1/10 → ¬ highFreq > 6/10 → ¬ lowFreq > 7/10 →
       ¬ (midFreq > 5/10 ∧ volume > 3/10) →
       ¬ (midFreq > 4/10 ∧ highFreq > 3/10) →
       lowFreq > 4/10 ∧ midFreq > 3/10 →
      mapToVisemes lowFreq midFreq highFreq volume
        = [("jawOpen", 5/10), ("mouthFunnel", 7/10), ("mouthPucker", 6/10)])
    ∧ (¬ volume < 1/10 → ¬ highFreq > 6/10 → ¬ lowFreq > 7/10 →
       ¬ (midFreq > 5/10 ∧ volume > 3/10) →
       ¬ (midFreq > 4/10 ∧ highFreq > 3/10) →
       ¬ (lowFreq > 4/10 ∧ midFreq > 3/10) →
      mapToVisemes lowFreq midFreq highFreq volume
        = [("jawOpen", 3/10 * volume), ("mouthOpen", 2/10 * volume)]) := by
  refine ⟨?_, ?_, ?_, ?_, ?_, ?_, ?_⟩ <;>
    · intros
      simp only [mapToVisemes]
      split_ifs <;> rfl

/-- Witness for C8: a silent window maps to the silence pose, and a
high-frequency window above the sibilant threshold maps to the sibilant
pose. -/
theorem mapToVisemes_priority_witness :
    mapToVisemes 0 0 0 0 = [("jawOpen", 0), ("mouthClose", 1)]
    ∧ mapToVisemes 0 0 1 (1/2)
        = [("jawOpen", 2/10), ("mouthStretchLeft", 4/10),
           ("mouthStretchRight", 4/10), ("mouthFunnel", 2/10)] := by
  refine ⟨?_, ?_⟩
  · exact (mapToVisemes_priority 0 0 0 0).1 (by norm_num)
  · exact (mapToVisemes_priority 0 0 1 (1/2)).2.1 (by norm_num) (by norm_num)

/-- C9. For every key of either weight set, the smoothed value is the
previous value plus (target minus previous) times the smoothing factor,
clamped to [0,1]; and under the engine's invariants (factor and weights
in [0,1]) the smoothed value lies between the previous value and the
target — monotone movement toward the target with no overshoot — and
stays within [0,1]. -/
theorem smoothWeights_lerp_clamp (factor : ℚ)
    (previousWeights newWeights : VisemeWeights) (k : String) :
    getW (smoothWeights factor previousWeights newWeights) k
      = clamp01 (getW previousWeights k
          + (getW newWeights k - getW previousWeights k) * factor)
    ∧ (0 ≤ factor → factor ≤ 1 →
       0 ≤ getW previousWeights k → getW previousWeights k ≤ 1 →
       0 ≤ getW newWeights k → getW newWeights k ≤ 1 →
        (getW previousWeights k ≤ getW newWeights k →
          getW previousWeights k
              ≤ getW (smoothWeights factor previousWeights newWeights) k
          ∧ getW (smoothWeights factor previousWeights newWeights) k
              ≤ getW newWeights k)
        ∧ (getW newWeights k ≤ getW previousWeights k →
          getW newWeights k
              ≤ getW (smoothWeights factor previousWeights newWeights) k
          ∧ getW (smoothWeights factor previousWeights newWeights) k
              ≤ getW previousWeights k)
        ∧ 0 ≤ getW (smoothWeights factor previousWeights newWeights) k
        ∧ getW (smoothWeights factor previousWeights newWeights) k ≤ 1) := by
  have heq : getW (smoothWeights factor previousWeights newWeights) k
      = clamp01 (getW previousWeights k
          + (getW newWeights k - getW previousWeights k) * factor) := by
    unfold smoothWeights
    simp only [getW]
    rw [lookup_map_self]
    by_cases hk : k ∈ (previousWeights.map Prod.fst
        ++ newWeights.map Prod.fst).dedup
    · simp [hk]
    · have hk' := hk
      rw [List.mem_dedup, List.mem_append] at hk'
      push_neg at hk'
      have hp := lookup_eq_none_of_not_mem_keys previousWeights k hk'.1
      have hn := lookup_eq_none_of_not_mem_keys newWeights k hk'.2
      simp [hk, hp, hn, clamp01]
  refine ⟨heq, ?_⟩
  intro hf0 hf1 hp0 hp1 hn0 hn1
  refine ⟨?_, ?_, ?_, ?_⟩
  · intro hst
    have h1 : getW previousWeights k
        ≤ getW previousWeights k
          + (getW newWeights k - getW previousWeights k) * factor := by
      nlinarith
    have h2 : getW previousWeights k
          + (getW newWeights k - getW previousWeights k) * factor
        ≤ getW newWeights k := by
      nlinarith
    rw [heq, clamp01_eq_self (by linarith) (by linarith)]
    exact ⟨h1, h2⟩
  · intro hts
    have h1 : getW newWeights k
        ≤ getW previousWeights k
          + (getW newWeights k - getW previousWeights k) * factor := by
      nlinarith
    have h2 : getW previousWeights k
          + (getW newWeights k - getW previousWeights k) * factor
        ≤ getW previousWeights k := by
      nlinarith
    rw [heq, clamp01_eq_self (by linarith) (by linarith)]
    exact ⟨h1, h2⟩
  · rw [heq]; exact clamp01_nonneg _
  · rw [heq]; exact clamp01_le_one _

/-- Witness for C9 with the default smoothing factor 0.3: smoothing
jawOpen from 0.5 toward target 1 gives exactly the lerp value and moves
monotonically without overshoot. -/
theorem smoothWeights_lerp_clamp_witness :
    getW (smoothWeights smoothingFactor [("jawOpen", 1/2)]
        [("jawOpen", 1)]) "jawOpen"
      = clamp01 (1/2 + (1 - 1/2) * smoothingFactor)
    ∧ (1/2 : ℚ) ≤ getW (smoothWeights smoothingFactor [("jawOpen", 1/2)]
        [("jawOpen", 1)]) "jawOpen"
    ∧ getW (smoothWeights smoothingFactor [("jawOpen", 1/2)]
        [("jawOpen", 1)]) "jawOpen" ≤ 1 := by
  have h := smoothWeights_lerp_clamp smoothingFactor
    [("jawOpen", 1/2)] [("jawOpen", 1)] "jawOpen"
  have hgp : getW [("jawOpen", 1/2)] "jawOpen" = 1/2 := by
    simp [getW, List.lookup]
  have hgn : getW [(("jawOpen" : String), (1 : ℚ))] "jawOpen" = 1 := by
    simp [getW, List.lookup]
  have h2 := h.2 (by norm_num [smoothingFactor]) (by norm_num [smoothingFactor])
    (by rw [hgp]; norm_num) (by rw [hgp]; norm_num)
    (by rw [hgn]; norm_num) (by rw [hgn])
  have hmono := h2.1 (by rw [hgp, hgn]; norm_num)
  refine ⟨?_, ?_, ?_⟩
  · rw [h.1, hgp, hgn]
  · rw [← hgp]; exact hmono.1
  · rw [← hgn]; exact hmono.2

end LipSyncClaims

/-- A decoded audio buffer awaiting playback, abstracted to its
payload. -/
abbrev AudioBuffer := String

/-- The voice coordinator's mutable fields (`VoiceCoordinator`). The
`stt`, `audioContext` and callback fields are external collaborators;
`currentEventSource` is never assigned in the source and is omitted. -/
structure VoiceCoordinator where
  stateMachine : ConversationStateMachine
  audioQueue : List AudioBuffer := []
  isPlaying : Bool := false
  currentSourceNode : Option AudioBuffer := none
  conversationId : Option String := none
deriving DecidableEq, Repr

/-- `VoiceCoordinator.playNextInQueue`: an empty queue clears the
playing flag; otherwise the queue head is shifted off, becomes the
current source node and starts playing. -/
def VoiceCoordinator.playNextInQueue (c : VoiceCoordinator) :
    VoiceCoordinator :=
  match c.audioQueue with
  | [] => { c with isPlaying := false }
  | buffer :: rest =>
      { c with isPlaying := true
               audioQueue := rest
               currentSourceNode := some buffer }

/-- `VoiceCoordinator.playAudioChunk`: a chunk that fails to decode is
dropped (`none`); a decoded buffer is pushed onto the queue and, if
nothing is playing, playback starts at once. The loop performs no check
of the conversation state before enqueueing. -/
def VoiceCoordinator.playAudioChunk (c : VoiceCoordinator)
    (decoded : Option AudioBuffer) : VoiceCoordinator :=
  match decoded with
  | none => c
  | some audioBuffer =>
      let c := { c with audioQueue := c.audioQueue ++ [audioBuffer] }
      if c.isPlaying then c else c.playNextInQueue

/-- `VoiceCoordinator.stopAudioPlayback`: stop the current source node,
clear the queue and the playing flag. -/
def VoiceCoordinator.stopAudioPlayback (c : VoiceCoordinator) :
    VoiceCoordinator :=
  { c with currentSourceNode := none
           audioQueue := []
           isPlaying := false }

/-- `VoiceCoordinator.handleBargeIn`: stop playback and transition the
state machine to BARGE_IN. -/
def VoiceCoordinator.handleBargeIn (c : VoiceCoordinator) (now : Nat) :
    VoiceCoordinator :=
  let c := c.stopAudioPlayback
  { c with stateMachine := (c.stateMachine.transition .BARGE_IN none now).2 }

/-- The delayed callback scheduled by `handleBargeIn` (the 300 ms
`setTimeout`): transition onward to LISTENING only if the state is
still BARGE_IN when it fires. -/
def VoiceCoordinator.bargeInGraceTimeout (c : VoiceCoordinator)
    (now : Nat) : VoiceCoordinator :=
  if c.stateMachine.state = .BARGE_IN then
    { c with stateMachine := (c.stateMachine.transition .LISTENING none now).2 }
  else c

/-- Outcome of the streamed TTS call observed by `speakResponse`:
either a thrown/non-ok failure (after any chunks already delivered), or
a stream of chunk parse results with or without the final `[DONE]`
sentinel. `none` entries are chunks that fail to parse or decode. -/
inductive TtsOutcome
  | failure (priorChunks : List (Option AudioBuffer)) (message : String)
  | stream (chunks : List (Option AudioBuffer)) (doneMarker : Bool)

/-- The read loop of `speakResponse`: each delivered chunk goes through
`playAudioChunk` unconditionally. -/
def VoiceCoordinator.enqueueChunks (c : VoiceCoordinator)
    (chunks : List (Option AudioBuffer)) : VoiceCoordinator :=
  chunks.foldl VoiceCoordinator.playAudioChunk c

/-- `VoiceCoordinator.speakResponse`: blank text transitions straight
back to LISTENING; otherwise transition to SPEAKING, stream the TTS
chunks through the read loop, then on the `[DONE]` sentinel transition
to LISTENING; on a TTS failure report a "TTS error: ..." observer
message and transition to LISTENING. A stream that ends without the
sentinel leaves the machine as it is. The returned list holds the
`onError` observer messages. -/
def VoiceCoordinator.speakResponse (c : VoiceCoordinator) (text : String)
    (tts : TtsOutcome) (now : Nat) : VoiceCoordinator × List String :=
  if jsTrim text = "" then
    ({ c with stateMachine := (c.stateMachine.transition .LISTENING none now).2 },
     [])
  else
    let c := { c with
      stateMachine := (c.stateMachine.transition .SPEAKING none now).2 }
    match tts with
    | .failure priorChunks message =>
        let c := c.enqueueChunks priorChunks
        ({ c with
            stateMachine := (c.stateMachine.transition .LISTENING none now).2 },
         ["TTS error: " ++ message])
    | .stream chunks doneMarker =>
        let c := c.enqueueChunks chunks
        if doneMarker then
          ({ c with
              stateMachine := (c.stateMachine.transition .LISTENING none now).2 },
           [])
        else
          (c, [])

/-- Outcome of the chat call observed by `processUserInput`: a
failure (non-ok HTTP response, error body or thrown error, already
rendered to its message) or a reply with a conversation id. -/
inductive ChatOutcome
  | failure (message : String)
  | ok (text : String) (conversationId : String)

/-- `VoiceCoordinator.processUserInput`: transition to THINKING, issue
the chat call; on failure report an "Error: ..." observer message and
transition back to LISTENING; on success store the conversation id,
surface the response text and hand it to `speakResponse`. Returns the
updated coordinator, the `onError` messages and the `onResponse`
texts. -/
def VoiceCoordinator.processUserInput (c : VoiceCoordinator)
    (chat : ChatOutcome) (tts : TtsOutcome) (now : Nat) :
    VoiceCoordinator × List String × List String :=
  let c := { c with
    stateMachine := (c.stateMachine.transition .THINKING none now).2 }
  match chat with
  | .failure message =>
      ({ c with
          stateMachine := (c.stateMachine.transition .LISTENING none now).2 },
       ["Error: " ++ message], [])
  | .ok text conversationId =>
      let c := { c with conversationId := some conversationId }
      let r := c.speakResponse text tts now
      (r.1, r.2, [text])

lemma playNextInQueue_stateMachine (c : VoiceCoordinator) :
    c.playNextInQueue.stateMachine = c.stateMachine := by
  unfold VoiceCoordinator.playNextInQueue
  split <;> rfl

lemma playAudioChunk_stateMachine (c : VoiceCoordinator)
    (decoded : Option AudioBuffer) :
    (c.playAudioChunk decoded).stateMachine = c.stateMachine := by
  cases decoded with
  | none => rfl
  | some b =>
    simp only [VoiceCoordinator.playAudioChunk]
    by_cases hp : c.isPlaying <;>
      simp [hp, playNextInQueue_stateMachine]

lemma enqueueChunks_stateMachine (chunks : List (Option AudioBuffer)) :
    ∀ c : VoiceCoordinator,
      (c.enqueueChunks chunks).stateMachine = c.stateMachine := by
  induction chunks with
  | nil => intro c; rfl
  | cons d ds ih =>
    intro c
    have h1 : c.enqueueChunks (d :: ds)
        = (c.playAudioChunk d).enqueueChunks ds := rfl
    rw [h1, ih, playAudioChunk_stateMachine]

lemma thinking_then_listening (m : ConversationStateMachine) (now : Nat) :
    ((m.transition .THINKING none now).2.transition
        .LISTENING none now).2.state = .LISTENING := by
  obtain ⟨s, hist⟩ := m
  cases s <;> rfl

lemma thinking_speaking_listening (m : ConversationStateMachine)
    (now : Nat) :
    (((m.transition .THINKING none now).2.transition
        .SPEAKING none now).2.transition .LISTENING none now).2.state
      = .LISTENING := by
  obtain ⟨s, hist⟩ := m
  cases s <;> rfl

section CoordinatorClaims

/-- C2. A barge-in signal stops the current source node, clears the
whole audio queue and the playing flag, and moves a SPEAKING machine to
BARGE_IN; the delayed grace callback moves BARGE_IN onward to
LISTENING, and is a no-op on every coordinator whose state has moved on
from BARGE_IN during the grace window. -/
theorem bargeIn_clears_playback (c : VoiceCoordinator) (now now2 : Nat)
    (h : c.stateMachine.state = .SPEAKING) :
    (c.handleBargeIn now).audioQueue = []
    ∧ (c.handleBargeIn now).isPlaying = false
    ∧ (c.handleBargeIn now).currentSourceNode = none
    ∧ (c.handleBargeIn now).stateMachine.state = .BARGE_IN
    ∧ ((c.handleBargeIn now).bargeInGraceTimeout now2).stateMachine.state
        = .LISTENING
    ∧ (∀ c₂ : VoiceCoordinator, c₂.stateMachine.state ≠ .BARGE_IN →
        c₂.bargeInGraceTimeout now2 = c₂) := by
  have hv : isValidTransition ConversationState.SPEAKING .BARGE_IN = true := by
    decide
  have hstate : (c.handleBargeIn now).stateMachine.state = .BARGE_IN := by
    simp [VoiceCoordinator.handleBargeIn, VoiceCoordinator.stopAudioPlayback,
      ConversationStateMachine.transition, h, hv]
  refine ⟨rfl, rfl, rfl, hstate, ?_, ?_⟩
  · have hv2 : isValidTransition ConversationState.BARGE_IN .LISTENING
        = true := by decide
    simp [VoiceCoordinator.bargeInGraceTimeout, hstate,
      ConversationStateMachine.transition, hv2]
  · intro c₂ h₂
    simp [VoiceCoordinator.bargeInGraceTimeout, h₂]

/-- Witness for C2 on a concrete speaking coordinator with a playing
node and two queued buffers: barge-in empties the queue, stops the
node, enters BARGE_IN, and the grace callback then enters LISTENING. -/
theorem bargeIn_clears_playback_witness :
    (({ stateMachine := ⟨.SPEAKING, []⟩, audioQueue := ["b1", "b2"],
        isPlaying := true, currentSourceNode := some "b0",
        conversationId := none } :
       VoiceCoordinator).handleBargeIn 1000).audioQueue = []
    ∧ (({ stateMachine := ⟨.SPEAKING, []⟩, audioQueue := ["b1", "b2"],
          isPlaying := true, currentSourceNode := some "b0",
          conversationId := none } :
         VoiceCoordinator).handleBargeIn 1000).stateMachine.state = .BARGE_IN
    ∧ ((({ stateMachine := ⟨.SPEAKING, []⟩, audioQueue := ["b1", "b2"],
           isPlaying := true, currentSourceNode := some "b0",
           conversationId := none } :
          VoiceCoordinator).handleBargeIn 1000).bargeInGraceTimeout
            1300).stateMachine.state = .LISTENING := by
  have h := bargeIn_clears_playback
    ({ stateMachine := ⟨.SPEAKING, []⟩, audioQueue := ["b1", "b2"],
       isPlaying := true, currentSourceNode := some "b0",
       conversationId := none } : VoiceCoordinator) 1000 1300 rfl
  exact ⟨h.1, h.2.2.2.1, h.2.2.2.2.1⟩

/-- C3. Whenever the chat call fails, `processUserInput` emits exactly
one error message and lands the machine in LISTENING; whenever the TTS
call fails on non-blank text, it likewise emits exactly one error
message and lands in LISTENING — after either failure the state is
never left in THINKING or SPEAKING. -/
theorem failure_recovers_to_listening (c : VoiceCoordinator) (now : Nat) :
    (∀ (message : String) (tts : TtsOutcome),
        (c.processUserInput (.failure message) tts now).2.1
            = ["Error: " ++ message]
        ∧ (c.processUserInput (.failure message) tts now).1.stateMachine.state
            = .LISTENING)
    ∧ (∀ (text conversationId message : String)
          (priorChunks : List (Option AudioBuffer)),
        jsTrim text ≠ "" →
        (c.processUserInput (.ok text conversationId)
            (.failure priorChunks message) now).2.1
            = ["TTS error: " ++ message]
        ∧ (c.processUserInput (.ok text conversationId)
            (.failure priorChunks message) now).1.stateMachine.state
            = .LISTENING) := by
  constructor
  · intro message tts
    exact ⟨rfl, thinking_then_listening c.stateMachine now⟩
  · intro text conversationId message priorChunks htext
    constructor
    · simp [VoiceCoordinator.processUserInput, VoiceCoordinator.speakResponse,
        htext]
    · simp [VoiceCoordinator.processUserInput, VoiceCoordinator.speakResponse,
        htext, enqueueChunks_stateMachine]
      exact thinking_speaking_listening c.stateMachine now

/-- Witness for C3 on a concrete listening coordinator: a chat failure
produces the single error message and state LISTENING, and a TTS
failure on the nonempty reply text likewise. -/
theorem failure_recovers_to_listening_witness :
    (({ stateMachine := ⟨.LISTENING, []⟩ } :
        VoiceCoordinator).processUserInput (.failure "boom")
          (.stream [] true) 2).2.1 = ["Error: " ++ "boom"]
    ∧ (({ stateMachine := ⟨.LISTENING, []⟩ } :
        VoiceCoordinator).processUserInput (.failure "boom")
          (.stream [] true) 2).1.stateMachine.state = .LISTENING
    ∧ (({ stateMachine := ⟨.LISTENING, []⟩ } :
        VoiceCoordinator).processUserInput (.ok "hi" "c1")
          (.failure [] "down") 2).2.1 = ["TTS error: " ++ "down"]
    ∧ (({ stateMachine := ⟨.LISTENING, []⟩ } :
        VoiceCoordinator).processUserInput (.ok "hi" "c1")
          (.failure [] "down") 2).1.stateMachine.state = .LISTENING := by
  have h := failure_recovers_to_listening
    ({ stateMachine := ⟨.LISTENING, []⟩ } : VoiceCoordinator) 2
  have h1 := h.1 "boom" (.stream [] true)
  have h2 := h.2 "hi" "c1" "down" [] (by decide)
  exact ⟨h1.1, h1.2, h2.1, h2.2⟩

/-- C4 evaluation. After a barge-in has cleared the queue and entered
BARGE_IN, a late TTS chunk from the cancelled stream is still pushed
through `playAudioChunk`: it lands on the queue and, the playing flag
having been cleared, immediately becomes the current source node and
starts playing while the machine is still in BARGE_IN — the read loop
performs no "no longer speaking" check, so stale chunks are played,
not discarded. -/
theorem stale_chunk_played_after_bargeIn :
    ((({ stateMachine := ⟨.SPEAKING, []⟩, audioQueue := ["b1"],
         isPlaying := true, currentSourceNode := some "b0",
         conversationId := none } :
        VoiceCoordinator).handleBargeIn 1000).playAudioChunk
          (some "stale")).currentSourceNode = some "stale"
    ∧ ((({ stateMachine := ⟨.SPEAKING, []⟩, audioQueue := ["b1"],
           isPlaying := true, currentSourceNode := some "b0",
           conversationId := none } :
          VoiceCoordinator).handleBargeIn 1000).playAudioChunk
            (some "stale")).isPlaying = true
    ∧ ((({ stateMachine := ⟨.SPEAKING, []⟩, audioQueue := ["b1"],
           isPlaying := true, currentSourceNode := some "b0",
           conversationId := none } :
          VoiceCoordinator).handleBargeIn 1000).playAudioChunk
            (some "stale")).stateMachine.state = .BARGE_IN := by
  refine ⟨rfl, rfl, rfl⟩

end CoordinatorClaims

/-- The generic state-change callback dispatch of
`ConversationStateMachine.transition`: on success the callback receives
`(from, to, reason)` with `from` captured before the state update. The
callback's value is returned as `some`; on a rejected transition no
callback fires. -/
def transitionNotifying {α : Type}
    (cb : ConversationState → ConversationState → Option String → α)
    (m : ConversationStateMachine) (to_ : ConversationState)
    (reason : Option String) (now : Nat) :
    (Bool × ConversationStateMachine) × Option α :=
  let r := m.transition to_ reason now
  (r, if r.1 then some (cb m.state to_ reason) else none)

/-- The wiring in the `VoiceCoordinator` constructor: its state machine
`onStateChange` callback binds only the first positional parameter
(named `state` in the source) and forwards it to the external
`onStateChange` observer. -/
def coordinatorStateChangeWiring {α : Type}
    (onStateChange : ConversationState → α) :
    ConversationState → ConversationState → Option String → α :=
  fun state _to _reason => onStateChange state

section ObserverClaim

/-- C10. On every successful transition the coordinator's external
observer receives the value of the first callback parameter — the state
being left — and in particular, whenever the from and to states differ,
the observer does not receive the state being entered. -/
theorem onStateChange_observer_receives_from_state {α : Type}
    (observer : ConversationState → α) (m : ConversationStateMachine)
    (to_ : ConversationState) (reason : Option String) (now : Nat)
    (h : to_ ∈ validTransitions m.state) :
    (transitionNotifying (coordinatorStateChangeWiring observer)
        m to_ reason now).2 = some (observer m.state)
    ∧ (transitionNotifying (coordinatorStateChangeWiring id)
        m to_ reason now).2 = some m.state
    ∧ (m.state ≠ to_ →
        (transitionNotifying (coordinatorStateChangeWiring id)
          m to_ reason now).2 ≠ some to_) := by
  have hv : isValidTransition m.state to_ = true :=
    (isValidTransition_iff _ _).mpr h
  have hr : (m.transition to_ reason now).1 = true := by
    simp [ConversationStateMachine.transition, hv]
  refine ⟨?_, ?_, ?_⟩
  · simp [transitionNotifying, coordinatorStateChangeWiring, hr]
  · simp [transitionNotifying, coordinatorStateChangeWiring, hr]
  · intro hne
    simp [transitionNotifying, coordinatorStateChangeWiring, hr]
    exact hne

/-- Witness for C10: for the successful IDLE → LISTENING transition the
observed value is IDLE, the state being left, not LISTENING. -/
theorem onStateChange_observer_receives_from_state_witness :
    (transitionNotifying (coordinatorStateChangeWiring id)
        ⟨.IDLE, []⟩ .LISTENING none 9).2 = some .IDLE
    ∧ (transitionNotifying (coordinatorStateChangeWiring id)
        ⟨.IDLE, []⟩ .LISTENING none 9).2 ≠ some .LISTENING := by
  have h := onStateChange_observer_receives_from_state id
    ⟨.IDLE, []⟩ .LISTENING none 9 (by decide)
  exact ⟨h.2.1, h.2.2 (by decide)⟩

end ObserverClaim
